import Mathlib

/-
Verification of the flambe experiment scheduler and script runner.

Shallow embedding of:
  * flambe/experiment/experiment.py : class Experiment (__init__ and run)
  * flambe/learn/script.py          : class Script (__init__ and run)

Conventions of the embedding:
  * Python dicts become association lists `List (String × β)` in insertion
    order; `d.get(k, default)` becomes `(dictGet d k).getD default`;
    `d[k]` on a missing key, which raises `KeyError` in Python, becomes an
    `Except` error carrying the missing key.
  * Ray object ids (handles) are modelled by the submission index `Nat`:
    the i-th call to `stage.run.remote()` returns handle `i`.
  * A run is modelled by the trace of externally visible events: one
    `Event.submit` per constructed-and-launched stage, carrying exactly the
    keyword arguments passed at `ray.remote(Stage).remote(...)` in the
    source, and one `Event.join` for the final `ray.get(...)`.
  * `ray.init` performs global runtime initialization only and contributes
    no event to the trace.
  * The classes Pipeline, Stage and Environment live in files of this
    repository that are not part of the two sources above; the small parts
    of their behaviour that the scheduler relies on are modelled from the
    spec and marked as such below.
-/

/-- Modelled from the spec: `flambe.runner.runnable.Environment` (its source
file is absent here) is a shared read-mostly context carrying a save/output
path and a debug flag; `Environment(save_path)` leaves debug off. -/
structure Environment where
  save_path : String
  debug : Bool
deriving DecidableEq

/-- Hyperparameter search algorithms are opaque to the scheduler. The
`gridSearch` constructor is distinguished only because the documentation
names exhaustive grid search as the default; any other algorithm is an
opaque `custom` value. -/
inductive Algorithm where
  | gridSearch : Algorithm
  | custom (id : Nat) : Algorithm
deriving DecidableEq

/-- The keyword arguments passed to one `ray.remote(Stage).remote(...)` call
in `Experiment.run` (experiment.py lines 86-95). `dependencies` holds the
object ids (handles) of the stages the sub-pipeline depends on, and
`pipeline_deps` records the `sub_pipeline.dependencies` list of the
sub-pipeline that is passed along. -/
structure Submission where
  name : String
  pipeline_deps : List String
  algorithm : Option Algorithm
  reductions : Option Int
  dependencies : List Nat
  cpus_per_trial : Int
  gpus_per_trial : Int
  environment : Environment
deriving DecidableEq

/-- Externally visible events of one `Experiment.run` call: asynchronous
stage submissions, and the final blocking `ray.get` over a list of handles. -/
inductive Event where
  | submit (s : Submission) : Event
  | join (handles : List Nat) : Event
deriving DecidableEq

/-- Errors a run can surface. The source only ever produces `keyError`
(a raw Python `KeyError` from `stage_to_id[d]`, experiment.py line 83).
`unresolvedDependencyError` and `invalidBudgetError` are the error classes
named by the spec's error taxonomy; they exist here only so that statements
comparing the code against the spec can mention them — no code path
produces them. -/
inductive RunError where
  | keyError (k : String) : RunError
  | unresolvedDependencyError : RunError
  | invalidBudgetError : RunError
deriving DecidableEq

/-- Python `d.get(k)` / `d[k]` lookup on an insertion-ordered dict modelled
as an association list: the value of the first matching key, if any. -/
def dictGet {β : Type} : List (String × β) → String → Option β
  | [], _ => none
  | (k', v) :: rest, k => if k' = k then some v else dictGet rest k

/-- The `Experiment` object: the fields set by `__init__`
(experiment.py lines 48-54). The pipeline maps each stage name to the
stage's schema, of which the scheduler only ever consumes the dependency
names that `Pipeline.sub_pipeline(name).dependencies` extracts, so a stage
schema is represented by that list of dependency names. -/
structure Experiment where
  name : String
  save_path : String
  pipeline : List (String × List String)
  algorithm : List (String × Algorithm)
  reduce : List (String × Int)
  cpus_per_trial : List (String × Int)
  gpus_per_trial : List (String × Int)
deriving DecidableEq

/-- `Experiment.__init__` (experiment.py lines 14-54). `pipeline`,
`algorithm` and `reduce` fall back to a fresh empty dict when `None` is
passed (lines 50-52). Lines 53-54 assign fresh empty dicts to
`self.cpus_per_trial` and `self.gpus_per_trial` unconditionally: the
`cpus_per_trial` and `gpus_per_trial` arguments are discarded. -/
def Experiment.init (name : String) (save_path : String)
    (pipeline : Option (List (String × List String)))
    (algorithm : Option (List (String × Algorithm)))
    (reduce : Option (List (String × Int)))
    (cpus_per_trial : Option (List (String × Int)))
    (gpus_per_trial : Option (List (String × Int))) : Experiment :=
  ⟨name, save_path, pipeline.getD [], algorithm.getD [], reduce.getD [], [], []⟩

/-- Line 70 of `Experiment.run`:
`env = env if env is not None else Environment(self.save_path)`. -/
def Experiment.resolveEnv (e : Experiment) (env : Option Environment) : Environment :=
  match env with
  | some v => v
  | none => Environment.mk e.save_path false

/-- The list comprehension `[stage_to_id[d] for d in sub_pipeline.dependencies]`
(experiment.py line 83): lookups run left to right and the first missing
key raises `KeyError` carrying that key. -/
def lookupAll (stage_to_id : List (String × Nat)) : List String → Except String (List Nat)
  | [] => Except.ok []
  | d :: ds =>
    match dictGet stage_to_id d with
    | none => Except.error d
    | some v =>
      match lookupAll stage_to_id ds with
      | Except.error k => Except.error k
      | Except.ok vs => Except.ok (v :: vs)

/-- The `for name, schema in pipeline.arguments.items()` loop of
`Experiment.run` (experiment.py lines 80-100). Arguments: the remaining
stages in declared order, the `stage_to_id` dict accumulated so far, and
the next fresh handle id. On success it returns the submit events in order
together with the final `stage_to_id`. -/
def runLoop (e : Experiment) (env : Environment) :
    List (String × List String) → List (String × Nat) → Nat →
    Except RunError (List Event × List (String × Nat))
  | [], stage_to_id, _ => Except.ok ([], stage_to_id)
  | (name, deps) :: rest, stage_to_id, next =>
    match lookupAll stage_to_id deps with
    | Except.error d => Except.error (RunError.keyError d)
    | Except.ok dependency_ids =>
      match runLoop e env rest (stage_to_id ++ [(name, next)]) (next + 1) with
      | Except.error err => Except.error err
      | Except.ok (events, final) =>
        Except.ok
          (Event.submit
            (Submission.mk name deps
              (dictGet e.algorithm name)
              (dictGet e.reduce name)
              dependency_ids
              ((dictGet e.cpus_per_trial name).getD 1)
              ((dictGet e.gpus_per_trial name).getD 0)
              env) :: events,
           final)

/-- `Experiment.run` (experiment.py lines 60-104): resolve the environment,
submit every stage of the pipeline in declared order, then block on
`ray.get(list(stage_to_id.values()))`. The method never assigns to `self`
or to any of its fields, so the post-run object returned as the first
component is the receiver itself. -/
def Experiment.run (e : Experiment) (env : Option Environment) :
    Experiment × Except RunError (List Event) :=
  let environment := e.resolveEnv env
  match runLoop e environment e.pipeline [] 0 with
  | Except.error err => (e, Except.error err)
  | Except.ok (events, stage_to_id) =>
    (e, Except.ok (events ++ [Event.join (stage_to_id.map Prod.snd)]))

/-- Modelled from the spec: `flambe.experiment.stage.Stage` (its source is
absent here) treats the absence of an algorithm configuration (`None`) as
an exhaustive grid search. -/
def Stage.effectiveAlgorithm (a : Option Algorithm) : Algorithm :=
  a.getD Algorithm.gridSearch

/-- Modelled from the spec: `Stage` treats the absence of a reduction
configuration (`None`) as performing no reduction at all. -/
def Stage.appliesReduction (r : Option Int) : Bool :=
  r.isSome

/-- A pipeline listing is in topological order relative to the already-seen
stage names when every stage's dependencies all occur among the names
listed before it. With `seen = []` this is the spec's precondition on the
declared stage order. -/
def topoOk : List (String × List String) → List String → Bool
  | [], _ => true
  | (n, deps) :: rest, seen =>
    (deps.all fun d => decide (d ∈ seen)) && topoOk rest (seen ++ [n])

/-- The `Script` object: the fields set by `Script.__init__`
(script.py lines 29-58) that its `run` method reads. Positional arguments
and keyword values are kept in already-stringified form, since `run`
applies `str` to each before use; the `metric_fn` callable is not read by
`run` and is omitted. -/
structure Script where
  script : String
  args : List String
  kwargs : List (String × String)
  max_steps : Option Int
  step : Int
deriving DecidableEq

/-- `Script.__init__` (script.py lines 29-58): `keyword_args` falls back to
an empty dict and the `_step` counter starts at 0. -/
def Script.init (script : String) (pos_args : List String)
    (keyword_args : Option (List (String × String))) (max_steps : Option Int) : Script :=
  ⟨script, pos_args, keyword_args.getD [], max_steps, 0⟩

/-- `Script.run` (script.py lines 67-95), modelled on the normal-return
path. State threading: `argv` is `sys.argv` on entry and the second
component of the result is `sys.argv` on return. The effect of
`exec(open(self.script).read())` on `sys.argv` is opaque and modelled by
the function `scriptExec`; whatever it leaves in `sys.argv` is overwritten
by `sys.argv = sys_save` (line 89), where `sys_save` is a deep copy of the
entry value (line 86). The temporary-file config dump touches no modelled
state. Returns the updated object, the final `sys.argv`, and `continue_`. -/
def Script.run (s : Script) (argv : List String)
    (scriptExec : List String → List String) : Script × List String × Bool :=
  let parser_args_flat := s.args ++ s.kwargs.flatMap fun kv => [kv.1, kv.2]
  let sys_save := argv
  let argv_in_script := [""] ++ parser_args_flat
  let _argv_after_script := scriptExec argv_in_script
  let argv_final := sys_save
  let s_after : Script := ⟨s.script, s.args, s.kwargs, s.max_steps, s.step + 1⟩
  let continue_ : Bool :=
    match s_after.max_steps with
    | none => false
    | some m => if s_after.step ≥ m then false else true
  (s_after, argv_final, continue_)

/-- Properties every submission constructed by `runLoop` has: its keyword
arguments are exactly the lookups the source performs at lines 89-94 of
experiment.py, with the shared environment value threaded through. -/
def SubmittedWith (e : Experiment) (env : Environment) (sub : Submission) : Prop :=
  sub.algorithm = dictGet e.algorithm sub.name ∧
  sub.reductions = dictGet e.reduce sub.name ∧
  sub.cpus_per_trial = (dictGet e.cpus_per_trial sub.name).getD 1 ∧
  sub.gpus_per_trial = (dictGet e.gpus_per_trial sub.name).getD 0 ∧
  sub.environment = env

/-- The environment `Experiment.run` constructs when the caller passes
none and the save path is the default `'flambe_output'`. -/
def envDefault : Environment := Environment.mk "flambe_output" false

/-- Experiment with a (4, 1) budget supplied for stage `model` at
construction. -/
def expBudget : Experiment :=
  Experiment.init "exp" "flambe_output" (some [("model", [])]) none none
    (some [("model", 4)]) (some [("model", 1)])

/-- Experiment whose declared order lists the dependent stage `B` before
its dependency `A` — a non-topological order. -/
def expOutOfOrder : Experiment :=
  Experiment.init "exp" "flambe_output" (some [("B", ["A"]), ("A", [])]) none none none none

/-- Well-ordered two-stage pipeline, no optional configuration. -/
def expTwoStage : Experiment :=
  Experiment.init "exp" "flambe_output" (some [("A", []), ("B", ["A"])]) none none none none

/-- Experiment with negative budget entries supplied at construction. -/
def expNegativeBudget : Experiment :=
  Experiment.init "exp" "flambe_output" (some [("model", [])]) none none
    (some [("model", -5)]) (some [("model", -1)])

/-- The submission `Experiment.run expTwoStage none` performs for stage `A`. -/
def subA : Submission := Submission.mk "A" [] none none [] 1 0 envDefault

/-- The submission `Experiment.run expTwoStage none` performs for stage `B`. -/
def subB : Submission := Submission.mk "B" ["A"] none none [0] 1 0 envDefault

/-- The submission `Experiment.run` performs for the single stage `model`
of `expBudget` and of `expNegativeBudget`. -/
def subModel : Submission := Submission.mk "model" [] none none [] 1 0 envDefault

/-- The full event trace of `Experiment.run expTwoStage none`. -/
def eventsTwoStage : List Event := [Event.submit subA, Event.submit subB, Event.join [0, 1]]

theorem dictGet_eq_none_iff {β : Type} (m : List (String × β)) (k : String) :
    dictGet m k = none ↔ k ∉ m.map Prod.fst := by
  induction m with
  | nil => simp [dictGet]
  | cons p rest ih =>
    obtain ⟨k', v⟩ := p
    by_cases hk : k' = k
    · subst hk
      simp [dictGet]
    · have hk' : ¬ k = k' := fun h => hk h.symm
      simp [dictGet, hk, hk', ih]

theorem dictGet_isSome_of_mem {β : Type} (m : List (String × β)) (k : String)
    (h : k ∈ m.map Prod.fst) : ∃ v, dictGet m k = some v := by
  cases hd : dictGet m k with
  | none => exact absurd h ((dictGet_eq_none_iff m k).mp hd)
  | some v => exact ⟨v, rfl⟩

theorem lookupAll_ok (m : List (String × Nat)) :
    ∀ ds : List String, (∀ d ∈ ds, d ∈ m.map Prod.fst) →
    ∃ vs, lookupAll m ds = Except.ok vs := by
  intro ds
  induction ds with
  | nil => exact fun _ => ⟨[], rfl⟩
  | cons d ds ih =>
    intro h
    obtain ⟨v, hv⟩ := dictGet_isSome_of_mem m d (h d (List.mem_cons_self d ds))
    obtain ⟨vs, hvs⟩ := ih fun x hx => h x (List.mem_cons_of_mem d hx)
    exact ⟨v :: vs, by simp [lookupAll, hv, hvs]⟩

theorem lookupAll_error (m : List (String × Nat)) :
    ∀ ds : List String, ¬ (∀ d ∈ ds, d ∈ m.map Prod.fst) →
    ∃ k, lookupAll m ds = Except.error k := by
  intro ds
  induction ds with
  | nil => exact fun h => absurd (by simp) h
  | cons d ds ih =>
    intro h
    cases hd : dictGet m d with
    | none => exact ⟨d, by simp [lookupAll, hd]⟩
    | some v =>
      have hdmem : d ∈ m.map Prod.fst := by
        by_contra hmem
        rw [← dictGet_eq_none_iff m d] at hmem
        rw [hd] at hmem
        cases hmem
      have hds : ¬ (∀ x ∈ ds, x ∈ m.map Prod.fst) := by
        intro hall
        exact h fun x hx => by
          rcases List.mem_cons.mp hx with h1 | h2
          · exact h1 ▸ hdmem
          · exact hall x h2
      obtain ⟨k, hk⟩ := ih hds
      exact ⟨k, by simp [lookupAll, hd, hk]⟩

theorem runLoop_ok_structure (e : Experiment) (env : Environment) :
    ∀ (stages : List (String × List String)) (m : List (String × Nat)) (k : Nat)
      (events : List Event) (final : List (String × Nat)),
      runLoop e env stages m k = Except.ok (events, final) →
      ∃ subs : List Submission,
        events = subs.map Event.submit ∧
        subs.map Submission.name = stages.map Prod.fst ∧
        final.map Prod.snd = m.map Prod.snd ++ List.range' k stages.length ∧
        ∀ sub ∈ subs, SubmittedWith e env sub := by
  intro stages
  induction stages with
  | nil =>
    intro m k events final h
    simp only [runLoop, Except.ok.injEq, Prod.mk.injEq] at h
    obtain ⟨h1, h2⟩ := h
    exact ⟨[], by simp [← h1, ← h2, List.range']⟩
  | cons head rest ih =>
    obtain ⟨name, deps⟩ := head
    intro m k events final h
    simp only [runLoop] at h
    split at h
    · cases h
    · rename_i dependency_ids hlook
      split at h
      · cases h
      · rename_i events' final' hrec
        simp only [Except.ok.injEq, Prod.mk.injEq] at h
        obtain ⟨h1, h2⟩ := h
        obtain ⟨subs', e1, e2, e3, e4⟩ := ih (m ++ [(name, k)]) (k + 1) events' final' hrec
        refine ⟨Submission.mk name deps
          (dictGet e.algorithm name) (dictGet e.reduce name) dependency_ids
          ((dictGet e.cpus_per_trial name).getD 1)
          ((dictGet e.gpus_per_trial name).getD 0) env :: subs', ?_, ?_, ?_, ?_⟩
        · simp [← h1, e1]
        · simp [e2]
        · rw [← h2, e3]
          simp [List.range'_succ]
        · intro sub hsub
          rcases List.mem_cons.mp hsub with hhd | htl
          · subst hhd
            exact ⟨rfl, rfl, rfl, rfl, rfl⟩
          · exact e4 sub htl

theorem runLoop_error_keyError (e : Experiment) (env : Environment) :
    ∀ (stages : List (String × List String)) (m : List (String × Nat)) (k : Nat)
      (err : RunError), runLoop e env stages m k = Except.error err →
      ∃ d, err = RunError.keyError d := by
  intro stages
  induction stages with
  | nil =>
    intro m k err h
    cases h
  | cons head rest ih =>
    obtain ⟨name, deps⟩ := head
    intro m k err h
    simp only [runLoop] at h
    split at h
    · rename_i d hlook
      cases h
      exact ⟨d, rfl⟩
    · rename_i dependency_ids hlook
      split at h
      · rename_i err2 hrec
        cases h
        exact ih (m ++ [(name, k)]) (k + 1) _ hrec
      · cases h

theorem runLoop_error_of_not_topo (e : Experiment) (env : Environment) :
    ∀ (stages : List (String × List String)) (m : List (String × Nat)) (k : Nat),
      topoOk stages (m.map Prod.fst) = false →
      ∃ d, runLoop e env stages m k = Except.error (RunError.keyError d) := by
  intro stages
  induction stages with
  | nil =>
    intro m k h
    cases h
  | cons head rest ih =>
    obtain ⟨name, deps⟩ := head
    intro m k h
    simp only [topoOk, Bool.and_eq_false_iff] at h
    rcases h with hall | hrest
    · have hmiss : ¬ (∀ d ∈ deps, d ∈ m.map Prod.fst) := by
        intro hmem
        have htrue : (deps.all fun d => decide (d ∈ m.map Prod.fst)) = true := by
          rw [List.all_eq_true]
          intro d hd
          simpa using hmem d hd
        rw [htrue] at hall
        simp at hall
      obtain ⟨d, hd⟩ := lookupAll_error m deps hmiss
      exact ⟨d, by simp [runLoop, hd]⟩
    · by_cases hall : ∀ d ∈ deps, d ∈ m.map Prod.fst
      · obtain ⟨vs, hvs⟩ := lookupAll_ok m deps hall
        have hrest' : topoOk rest ((m ++ [(name, k)]).map Prod.fst) = false := by
          simp only [List.map_append]
          exact hrest
        obtain ⟨d, hd⟩ := ih (m ++ [(name, k)]) (k + 1) hrest'
        exact ⟨d, by simp [runLoop, hvs, hd]⟩
      · obtain ⟨d, hd⟩ := lookupAll_error m deps hall
        exact ⟨d, by simp [runLoop, hd]⟩

theorem run_ok_structure (e : Experiment) (envArg : Option Environment)
    (events : List Event)
    (h : (Experiment.run e envArg).2 = Except.ok events) :
    ∃ subs : List Submission,
      events = subs.map Event.submit ++ [Event.join (List.range e.pipeline.length)] ∧
      subs.map Submission.name = e.pipeline.map Prod.fst ∧
      ∀ sub ∈ subs, SubmittedWith e (e.resolveEnv envArg) sub := by
  cases hr : runLoop e (e.resolveEnv envArg) e.pipeline [] 0 with
  | error err =>
    simp [Experiment.run, hr] at h
  | ok p =>
    obtain ⟨events', final⟩ := p
    simp only [Experiment.run, hr] at h
    obtain ⟨subs, e1, e2, e3, e4⟩ :=
      runLoop_ok_structure e (e.resolveEnv envArg) e.pipeline [] 0 events' final hr
    injection h with h2
    subst h2
    refine ⟨subs, ?_, e2, e4⟩
    rw [e1]
    simp only [List.map_nil, List.nil_append] at e3
    rw [e3, ← List.range_eq_range']

theorem run_error_keyError (e : Experiment) (envArg : Option Environment)
    (err : RunError) (h : (Experiment.run e envArg).2 = Except.error err) :
    ∃ d, err = RunError.keyError d := by
  cases hr : runLoop e (e.resolveEnv envArg) e.pipeline [] 0 with
  | error err' =>
    simp only [Experiment.run, hr] at h
    cases h
    exact runLoop_error_keyError e (e.resolveEnv envArg) e.pipeline [] 0 _ hr
  | ok p =>
    obtain ⟨events', final⟩ := p
    simp [Experiment.run, hr] at h

theorem run_error_of_not_topo (e : Experiment) (envArg : Option Environment)
    (h : topoOk e.pipeline [] = false) :
    ∃ d, (Experiment.run e envArg).2 = Except.error (RunError.keyError d) := by
  have h' : topoOk e.pipeline ((List.map Prod.fst ([] : List (String × Nat)))) = false := h
  obtain ⟨d, hd⟩ := runLoop_error_of_not_topo e (e.resolveEnv envArg) e.pipeline [] 0 h'
  exact ⟨d, by simp [Experiment.run, hd]⟩

theorem submit_mem_of_mem_events (subs : List Submission) (hs : List Nat)
    (sub : Submission)
    (h : Event.submit sub ∈ subs.map Event.submit ++ [Event.join hs]) :
    sub ∈ subs := by
  rcases List.mem_append.mp h with h1 | h2
  · obtain ⟨x, hx, he⟩ := List.mem_map.mp h1
    cases he
    exact hx
  · simp at h2

/-- Claim C1 (code-bug evaluation): budget values supplied at Experiment
construction are NOT the values passed at submission. `expBudget` is
constructed with `cpus_per_trial = {model: 4}` and
`gpus_per_trial = {model: 1}`, yet its run submits stage `model` with
`cpus_per_trial = 1` and `gpus_per_trial = 0`, because `__init__`
(experiment.py lines 53-54) assigns fresh empty dicts to both fields,
discarding the constructor arguments its own docstring documents. -/
theorem budget_args_discarded :
    (Experiment.run expBudget none).2 =
      Except.ok [Event.submit subModel, Event.join [0]] ∧
    subModel.cpus_per_trial = 1 ∧ subModel.gpus_per_trial = 0 :=
  ⟨rfl, rfl, rfl⟩

/-- Claim C2 (counterexample): in `expOutOfOrder` the dependency `A` of
stage `B` appears after `B`, and `Experiment.run` surfaces the raw dict
lookup failure `KeyError "A"` from `stage_to_id[d]` — not the
`UnresolvedDependencyError` the claim demands, which no code path
produces. -/
theorem nontopo_raises_raw_keyError :
    (Experiment.run expOutOfOrder none).2 = Except.error (RunError.keyError "A") ∧
    RunError.keyError "A" ≠ RunError.unresolvedDependencyError :=
  ⟨rfl, by decide⟩

/-- Claim C2 (amended): for every pipeline whose declared order is not
topological, `Experiment.run` fails while resolving the offending stage's
dependency handles with the raw mapping lookup failure (a `KeyError`
carrying a missing dependency name); every error the run can produce is
such a raw failure, never `UnresolvedDependencyError`. -/
theorem nontopo_raises_keyError (e : Experiment) (envArg : Option Environment)
    (h : topoOk e.pipeline [] = false) :
    (∃ d, (Experiment.run e envArg).2 = Except.error (RunError.keyError d)) ∧
    ∀ err, (Experiment.run e envArg).2 = Except.error err →
      err ≠ RunError.unresolvedDependencyError := by
  refine ⟨run_error_of_not_topo e envArg h, ?_⟩
  intro err herr
  obtain ⟨d, hd⟩ := run_error_keyError e envArg err herr
  subst hd
  intro hcontra
  cases hcontra

/-- Witness for the amended claim C2 at the concrete out-of-order
pipeline. -/
theorem nontopo_raises_keyError_witness :
    ∃ d, (Experiment.run expOutOfOrder none).2 = Except.error (RunError.keyError d) :=
  (nontopo_raises_keyError expOutOfOrder none (by decide)).1

/-- Claim C3: on every successful run the event trace consists of the
stage submissions — one per pipeline stage, in declared order — followed
by a single join that waits on all recorded handles; the join is the only
and last join and occurs after the last submission. -/
theorem submits_all_then_single_join (e : Experiment) (envArg : Option Environment)
    (events : List Event)
    (h : (Experiment.run e envArg).2 = Except.ok events) :
    ∃ subs : List Submission,
      events = subs.map Event.submit ++ [Event.join (List.range e.pipeline.length)] ∧
      subs.map Submission.name = e.pipeline.map Prod.fst := by
  obtain ⟨subs, h1, h2, h3⟩ := run_ok_structure e envArg events h
  exact ⟨subs, h1, h2⟩

/-- Witness for claim C3 at the concrete two-stage pipeline. -/
theorem submits_all_then_single_join_witness :
    ∃ subs : List Submission,
      eventsTwoStage = subs.map Event.submit ++
        [Event.join (List.range expTwoStage.pipeline.length)] ∧
      subs.map Submission.name = expTwoStage.pipeline.map Prod.fst :=
  submits_all_then_single_join expTwoStage none eventsTwoStage rfl

/-- Claim C4: a stage absent from the `cpus_per_trial` dict and from the
`gpus_per_trial` dict is submitted with exactly `cpus_per_trial = 1` and
`gpus_per_trial = 0` (experiment.py lines 92-93). -/
theorem absent_budget_defaults (e : Experiment) (envArg : Option Environment)
    (events : List Event) (sub : Submission)
    (h : (Experiment.run e envArg).2 = Except.ok events)
    (hmem : Event.submit sub ∈ events)
    (hc : dictGet e.cpus_per_trial sub.name = none)
    (hg : dictGet e.gpus_per_trial sub.name = none) :
    sub.cpus_per_trial = 1 ∧ sub.gpus_per_trial = 0 := by
  obtain ⟨subs, h1, h2, h3⟩ := run_ok_structure e envArg events h
  have hsub : sub ∈ subs := submit_mem_of_mem_events subs _ sub (h1 ▸ hmem)
  obtain ⟨_, _, hcpu, hgpu, _⟩ := h3 sub hsub
  rw [hcpu, hgpu, hc, hg]
  exact ⟨rfl, rfl⟩

/-- Witness for claim C4 at stage `A` of the concrete two-stage
pipeline. -/
theorem absent_budget_defaults_witness :
    subA.cpus_per_trial = 1 ∧ subA.gpus_per_trial = 0 :=
  absent_budget_defaults expTwoStage none eventsTwoStage subA rfl (by decide) rfl rfl

/-- Claim C5 (counterexample): constructed with negative budget entries
(-5 CPUs and -1 GPUs for stage `model`), the run does not fail with
`InvalidBudgetError` — it does not fail at all: it succeeds, submitting
the stage with the default budget, because `__init__` discards the
malformed mapping and no validation exists. -/
theorem negative_budget_not_rejected :
    (Experiment.run expNegativeBudget none).2 =
      Except.ok [Event.submit subModel, Event.join [0]] :=
  rfl

/-- Claim C5 (amended): negative budget values are never rejected: no
`InvalidBudgetError` exists in the code. For any experiment built by
`__init__` — whatever budget mappings are supplied — every error the run
can produce is a raw `KeyError`, and on success every stage is submitted
with the default budget (1 CPU, 0 GPU), the supplied mappings having been
discarded at construction. -/
theorem negative_budget_never_validated (nm sp : String)
    (pl : Option (List (String × List String)))
    (al : Option (List (String × Algorithm)))
    (rd : Option (List (String × Int)))
    (cb gb : Option (List (String × Int)))
    (envArg : Option Environment) :
    (∀ err,
      (Experiment.run (Experiment.init nm sp pl al rd cb gb) envArg).2 = Except.error err →
      ∃ d, err = RunError.keyError d) ∧
    (∀ events sub,
      (Experiment.run (Experiment.init nm sp pl al rd cb gb) envArg).2 = Except.ok events →
      Event.submit sub ∈ events →
      sub.cpus_per_trial = 1 ∧ sub.gpus_per_trial = 0) := by
  constructor
  · intro err herr
    exact run_error_keyError _ envArg err herr
  · intro events sub h hmem
    obtain ⟨subs, h1, h2, h3⟩ := run_ok_structure _ envArg events h
    have hsub : sub ∈ subs := submit_mem_of_mem_events subs _ sub (h1 ▸ hmem)
    obtain ⟨_, _, hcpu, hgpu, _⟩ := h3 sub hsub
    rw [hcpu, hgpu]
    exact ⟨rfl, rfl⟩

/-- Witness for the amended claim C5 at the concrete negative-budget
experiment. -/
theorem negative_budget_never_validated_witness :
    subModel.cpus_per_trial = 1 ∧ subModel.gpus_per_trial = 0 :=
  (negative_budget_never_validated "exp" "flambe_output" (some [("model", [])]) none none
      (some [("model", -5)]) (some [("model", -1)]) none).2
    [Event.submit subModel, Event.join [0]] subModel rfl (by decide)

/-- Claim C6: a stage absent from the algorithm dict and from the reduce
dict is submitted with `algorithm = None` and `reductions = None`
(experiment.py lines 89-90), which the Stage — modelled from the spec —
interprets as an exhaustive grid search and no reduction. -/
theorem absent_config_defaults (e : Experiment) (envArg : Option Environment)
    (events : List Event) (sub : Submission)
    (h : (Experiment.run e envArg).2 = Except.ok events)
    (hmem : Event.submit sub ∈ events)
    (ha : dictGet e.algorithm sub.name = none)
    (hr : dictGet e.reduce sub.name = none) :
    sub.algorithm = none ∧ sub.reductions = none ∧
    Stage.effectiveAlgorithm sub.algorithm = Algorithm.gridSearch ∧
    Stage.appliesReduction sub.reductions = false := by
  obtain ⟨subs, h1, h2, h3⟩ := run_ok_structure e envArg events h
  have hsub : sub ∈ subs := submit_mem_of_mem_events subs _ sub (h1 ▸ hmem)
  obtain ⟨halg, hred, _, _, _⟩ := h3 sub hsub
  rw [halg, hred, ha, hr]
  exact ⟨rfl, rfl, rfl, rfl⟩

/-- Witness for claim C6 at stage `A` of the concrete two-stage
pipeline. -/
theorem absent_config_defaults_witness :
    subA.algorithm = none ∧ subA.reductions = none ∧
    Stage.effectiveAlgorithm subA.algorithm = Algorithm.gridSearch ∧
    Stage.appliesReduction subA.reductions = false :=
  absent_config_defaults expTwoStage none eventsTwoStage subA rfl (by decide) rfl rfl

/-- Claim C7: `Experiment.run` leaves every field of the experiment object
unchanged — the method reads `self` but never assigns to it, so the
post-run object equals the pre-run object field by field. -/
theorem run_preserves_fields (e : Experiment) (envArg : Option Environment) :
    (Experiment.run e envArg).1.name = e.name ∧
    (Experiment.run e envArg).1.save_path = e.save_path ∧
    (Experiment.run e envArg).1.pipeline = e.pipeline ∧
    (Experiment.run e envArg).1.algorithm = e.algorithm ∧
    (Experiment.run e envArg).1.reduce = e.reduce ∧
    (Experiment.run e envArg).1.cpus_per_trial = e.cpus_per_trial ∧
    (Experiment.run e envArg).1.gpus_per_trial = e.gpus_per_trial := by
  have h1 : (Experiment.run e envArg).1 = e := by
    cases hr : runLoop e (e.resolveEnv envArg) e.pipeline [] 0 with
    | error err => simp [Experiment.run, hr]
    | ok p => simp [Experiment.run, hr]
  rw [h1]
  exact ⟨rfl, rfl, rfl, rfl, rfl, rfl, rfl⟩

/-- Claim C8: a single environment value — the caller's if one was passed,
else `Environment(self.save_path)` — is resolved before the submission
loop, and every stage submission carries exactly that value. -/
theorem single_environment_shared (e : Experiment) (envArg : Option Environment)
    (events : List Event) (sub : Submission)
    (h : (Experiment.run e envArg).2 = Except.ok events)
    (hmem : Event.submit sub ∈ events) :
    sub.environment = e.resolveEnv envArg := by
  obtain ⟨subs, h1, h2, h3⟩ := run_ok_structure e envArg events h
  have hsub : sub ∈ subs := submit_mem_of_mem_events subs _ sub (h1 ▸ hmem)
  exact (h3 sub hsub).2.2.2.2

/-- Witness for claim C8 at stage `A` of the concrete two-stage
pipeline. -/
theorem single_environment_shared_witness :
    subA.environment = expTwoStage.resolveEnv none :=
  single_environment_shared expTwoStage none eventsTwoStage subA rfl (by decide)

/-- Claim C9: every normal return of `Script.run` increments the step
counter by exactly one, and the returned boolean is true exactly when
`max_steps` is set and the incremented counter is strictly below it; with
`max_steps = None` the result is always false (script.py lines 91-95). -/
theorem script_run_step_continue (s : Script) (argv : List String)
    (scriptExec : List String → List String) :
    (Script.run s argv scriptExec).1.step = s.step + 1 ∧
    ((Script.run s argv scriptExec).2.2 = true ↔
      ∃ m, s.max_steps = some m ∧ s.step + 1 < m) := by
  constructor
  · rfl
  · cases hm : s.max_steps with
    | none => simp [Script.run, hm]
    | some m => simp [Script.run, hm]

/-- Claim C10: on the normal-return path, `Script.run` restores `sys.argv`
to its entry value: lines 86-89 of script.py save a deep copy, replace
`sys.argv` with the flattened script arguments, and write the saved copy
back after the exec — whatever the executed script left there. -/
theorem script_run_restores_argv (s : Script) (argv : List String)
    (scriptExec : List String → List String) :
    (Script.run s argv scriptExec).2.1 = argv :=
  rfl
